import Mathlib

/-!
Verification of the cronrunner job-execution engine (`main.go`, the cron job
closure registered with `c.AddFunc`).  The closure is embedded as a pure
function: one *firing* receives a `JobConfig` (the decoded environment
configuration), an oracle `env : Nat → AttemptSpec` describing how the child
process of each attempt would behave (its natural run time, its exit outcome,
and whether opening the log file succeeds for that attempt), and the firing
start time `start` (the value of `time.Now()` at line 99).  Time is a `Nat`
in nanoseconds, matching Go's `time.Duration`; clock reads advance only while
a child process runs.  The function returns a `FiringResult`: the trace of
attempt records, the diagnostic lines printed via `log.Printf`, and how the
retry loop ended.
-/

namespace CronRunner

/-- Go's `time.Minute` in nanoseconds (`time.Duration(killAfterMin) * time.Minute`). -/
def minuteNs : Nat := 60000000000

/-- Whitespace test of Go's `strings.Fields` (`unicode.IsSpace`), restricted to
the Latin-1 range actually relevant here: `'\t'`, `'\n'`, `'\v'`, `'\f'`,
`'\r'`, `' '`, U+0085, U+00A0. -/
def isGoSpace (c : Char) : Bool :=
  c = '\t' || c = '\n' || c = Char.ofNat 11 || c = Char.ofNat 12 ||
  c = '\r' || c = ' ' || c = Char.ofNat 133 || c = Char.ofNat 160

/-- Accumulating splitter behind `goFields`: `acc` holds the current token
reversed; whitespace finishes a token, everything else extends it. -/
def fieldsAux : List Char → List Char → List String
  | acc, [] => if acc.isEmpty then [] else [String.mk acc.reverse]
  | acc, c :: cs =>
    if isGoSpace c then
      if acc.isEmpty then fieldsAux [] cs
      else String.mk acc.reverse :: fieldsAux [] cs
    else fieldsAux (c :: acc) cs

/-- Go's `strings.Fields`: split a string around runs of whitespace
(`parts := strings.Fields(appCommand)`, line 93). -/
def goFields (s : String) : List String := fieldsAux [] s.toList

/-- The configuration the scheduler layer resolves before the closure runs:
`appCommand` (decoded `CRON_CMD`), `killAfterMin` (parsed
`CRON_KILL_AFTER_MIN`, a Go `int`; only `> 0` enables the deadline),
`logFilePath` (`LOG_FILE`, `""` means unset) and `restartOnFail`
(parsed `RESTART_ON_FAIL`). -/
structure JobConfig where
  appCommand : String
  killAfterMin : Int
  logFilePath : String
  restartOnFail : Bool
  deriving Repr, DecidableEq

/-- How one `cmd.Run()` call concludes if the deadline does not intervene:
`success` (`err == nil`, exit code 0), `exitErr c` (`*exec.ExitError` whose
`ExitCode()` is `c`), or `startErr` (the process failed to start: `err != nil`,
no `ProcessState`, returns immediately). -/
inductive ProcOutcome where
  | success
  | exitErr (code : Int)
  | startErr
  deriving Repr, DecidableEq

/-- Oracle data for one attempt: `procDuration` is how long the child would run
to its natural conclusion, `outcome` is that conclusion, and `openOk` tells
whether `os.OpenFile(logFilePath, ...)` succeeds for this attempt. -/
structure AttemptSpec where
  procDuration : Nat
  outcome : ProcOutcome
  openOk : Bool
  deriving Repr, DecidableEq

/-- Events on the per-attempt log file, in the order the code performs them
(lines 129, 135, 141-144, 170, 171).  `openFile` carries the three flags of
`os.O_APPEND | os.O_CREATE | os.O_WRONLY`; `runStart`/`runEnd` are the
`===== RUN START/END =====` marker lines with their `time.Now()` timestamp,
and for `runEnd` the `exit=` and `duration=` fields; `childOut` stands for the
interval during which both child streams are teed into the file. -/
inductive FileEvent where
  | openFile (append create writeOnly : Bool)
  | runStart (ts : Nat)
  | childOut
  | runEnd (ts : Nat) (exit : Int) (duration : Nat)
  | close
  deriving Repr, DecidableEq

/-- The `log.Printf` diagnostic lines of the closure, with the payloads the
claims are about (lines 91, 95, 103, 115, 131, 157, 174, 177, 181). -/
inductive Diag where
  | executing
  | emptySkip
  | deadlineSet (deadline : Nat) (limitMin : Int)
  | gateRefused (attempt : Nat)
  | openFailed
  | timedOut (duration : Nat)
  | exited (duration : Nat) (exitCode : Int) (errPresent : Bool)
  | restarting
  | completed
  deriving Repr, DecidableEq

/-- Whether a diagnostic line is the `Failed to open LOG_FILE` report of line 131. -/
def Diag.isOpenFail : Diag → Bool
  | Diag.openFailed => true
  | _ => false

/-- What one attempt left behind: its number, the argv tokens, the clock at its
start and end, the gate-granted budget (`none` when unbounded), the time the
child actually consumed, the recorded `exitCode` and `killed` flags of lines
151-166, the `duration := time.Since(start)` value of line 145 reported in the
diagnostic line and the RUN END marker, whether the log file was opened and
teed, and the file events of the attempt. -/
structure AttemptRecord where
  attemptNumber : Nat
  argv : List String
  startTime : Nat
  budget : Option Nat
  elapsed : Nat
  endTime : Nat
  exitCode : Int
  killed : Bool
  reportedDuration : Nat
  openedLog : Bool
  fileEvents : List FileEvent
  deriving Repr, DecidableEq

/-- Output of one pass through the loop body (after the gate): the attempt
record, its diagnostic lines, the retry decision of line 176, and the clock
when the attempt concluded. -/
structure StepOut where
  record : AttemptRecord
  diags : List Diag
  retry : Bool
  nextNow : Nat
  deriving Repr, DecidableEq

/-- Result of one firing: the attempt trace, the diagnostic stream, the final
clock, whether the firing was skipped for an empty command (line 95), and
whether the loop ended at the deadline gate (`Kill deadline reached`,
line 115). -/
structure FiringResult where
  attempts : List AttemptRecord
  diagnostics : List Diag
  endTime : Nat
  skipped : Bool
  deadlineRefused : Bool
  deriving Repr, DecidableEq

/-- One pass through the loop body of lines 106-183, entered after the deadline
gate has let the attempt through (so when `deadline = some d`, the caller
guarantees `now < d`).  It opens/tees the log file (lines 124-142), runs the
child (`cmd.Run()`, line 144), takes `duration := time.Since(start)`
(line 145), classifies the error (lines 151-166: `exitCode` stays `0` when the
context deadline fired or when the process never started), writes the RUN END
marker and closes the file (lines 168-172), prints the exit diagnostic
(line 174) and decides the retry of lines 176-179 (`restartOnFail && killed`). -/
def attemptStep (cfg : JobConfig) (parts : List String) (spec : AttemptSpec)
    (start : Nat) (deadline : Option Nat) (attempt now : Nat) : StepOut :=
  let budget : Option Nat := deadline.map (fun d => d - now)
  let elapsed : Nat :=
    match spec.outcome, budget with
    | ProcOutcome.startErr, _ => 0
    | _, none => spec.procDuration
    | _, some b => min spec.procDuration b
  let killed : Bool :=
    match spec.outcome, budget with
    | ProcOutcome.startErr, _ => false
    | _, none => false
    | _, some b => decide (b ≤ spec.procDuration)
  let errPresent : Bool :=
    killed ||
      (match spec.outcome with
       | ProcOutcome.success => false
       | _ => true)
  let exitCode : Int :=
    if killed then 0
    else
      match spec.outcome with
      | ProcOutcome.success => 0
      | ProcOutcome.exitErr c => c
      | ProcOutcome.startErr => 0
  let endTime : Nat := now + elapsed
  let duration : Nat := now + elapsed - start
  let openTried : Bool := !(cfg.logFilePath = "")
  let opened : Bool := openTried && spec.openOk
  let fileEvents : List FileEvent :=
    if opened then
      [FileEvent.openFile true true true,
       FileEvent.runStart now,
       FileEvent.childOut,
       FileEvent.runEnd endTime exitCode duration,
       FileEvent.close]
    else []
  let retry : Bool := cfg.restartOnFail && killed
  { record :=
      { attemptNumber := attempt, argv := parts, startTime := now,
        budget := budget, elapsed := elapsed, endTime := endTime,
        exitCode := exitCode, killed := killed, reportedDuration := duration,
        openedLog := opened, fileEvents := fileEvents }
    diags :=
      (if openTried && !spec.openOk then [Diag.openFailed] else []) ++
      (if killed then [Diag.timedOut duration] else []) ++
      [Diag.exited duration exitCode errPresent] ++
      (if retry then [Diag.restarting] else [Diag.completed])
    retry := retry
    nextNow := endTime }

/-- The deadline gate of lines 112-117: with a configured deadline the loop
breaks when `remaining := time.Until(hardDeadline)` is `≤ 0`, i.e. when the
deadline is not after the current instant; without one it never refuses. -/
def gateRefuses : Option Nat → Nat → Bool
  | none, _ => false
  | some d, now => decide (d ≤ now)

/-- When the loop body decides to retry, the clock has reached the deadline
exactly: `retry` requires `killed`, which forces `deadline = some d`, the gate
having passed (`now < d`), and the attempt consuming the entire remaining
budget so that the attempt ends at `d`. -/
theorem attemptStep_retry (cfg : JobConfig) (parts : List String)
    (spec : AttemptSpec) (start : Nat) (deadline : Option Nat) (attempt now : Nat)
    (hg : gateRefuses deadline now = false)
    (hr : (attemptStep cfg parts spec start deadline attempt now).retry = true) :
    ∃ d, deadline = some d ∧ now < d ∧
      (attemptStep cfg parts spec start deadline attempt now).nextNow = d := by
  obtain ⟨dur, outc, opok⟩ := spec
  cases deadline with
  | none =>
    exfalso
    cases outc <;> simp [attemptStep] at hr
  | some d =>
    have hnow : now < d := by
      simp [gateRefuses] at hg
      omega
    refine ⟨d, rfl, hnow, ?_⟩
    cases outc <;> simp [attemptStep] at hr ⊢ <;> omega

/-- The retry loop of lines 106-183, from a given attempt number and clock:
check the deadline gate, run one attempt via `attemptStep`, and either loop
(`continue`, line 178) or stop (`break`, lines 116 and 182).  Termination is a
proved fact of the code: a retry only happens after a timeout-kill, which
leaves the clock at the deadline, so the next gate check refuses. -/
def runLoopGo (cfg : JobConfig) (parts : List String) (env : Nat → AttemptSpec)
    (start : Nat) (deadline : Option Nat) (attempt now : Nat) : FiringResult :=
  if hg : gateRefuses deadline now = true then
    { attempts := [], diagnostics := [Diag.gateRefused attempt],
      endTime := now, skipped := false, deadlineRefused := true }
  else
    let out := attemptStep cfg parts (env attempt) start deadline attempt now
    if hr : out.retry = true then
      let rest := runLoopGo cfg parts env start deadline (attempt + 1) out.nextNow
      { attempts := out.record :: rest.attempts,
        diagnostics := out.diags ++ rest.diagnostics,
        endTime := rest.endTime, skipped := false,
        deadlineRefused := rest.deadlineRefused }
    else
      { attempts := [out.record], diagnostics := out.diags,
        endTime := out.nextNow, skipped := false, deadlineRefused := false }
termination_by deadline.getD 0 + 1 - now
decreasing_by
  obtain ⟨d, hd, hlt, hnn⟩ :=
    attemptStep_retry cfg parts (env attempt) start deadline attempt now
      (by simpa using hg) hr
  subst hd
  simp only [Option.getD] at *
  omega

/-- The `hardDeadline` of lines 100-104: computed exactly once per firing,
before the first attempt, as the firing start plus
`time.Duration(killAfterMin) * time.Minute`; `none` when `killAfterMin ≤ 0`. -/
def firingDeadline (cfg : JobConfig) (start : Nat) : Option Nat :=
  if 0 < cfg.killAfterMin then some (start + cfg.killAfterMin.toNat * minuteNs)
  else none

/-- The diagnostic lines printed before the retry loop: `Executing command`
(line 91) and, when a deadline is configured, `Hard kill deadline set`
(line 103). -/
def firingHeadDiags (cfg : JobConfig) (start : Nat) : List Diag :=
  Diag.executing ::
    (if 0 < cfg.killAfterMin then
      [Diag.deadlineSet (start + cfg.killAfterMin.toNat * minuteNs) cfg.killAfterMin]
     else [])

/-- One firing of the cron job closure (lines 89-184): print the `Executing`
line, split the command (line 93), skip empty commands (lines 94-97), compute
the hard deadline once from the firing start when `killAfterMin > 0`
(lines 99-104), then enter the retry loop at attempt 1. -/
def runFiring (cfg : JobConfig) (env : Nat → AttemptSpec) (start : Nat) :
    FiringResult :=
  let parts := goFields cfg.appCommand
  if parts.length = 0 then
    { attempts := [], diagnostics := [Diag.executing, Diag.emptySkip],
      endTime := start, skipped := true, deadlineRefused := false }
  else
    let res := runLoopGo cfg parts env start (firingDeadline cfg start) 1 start
    { res with
        diagnostics := firingHeadDiags cfg start ++ res.diagnostics
        skipped := false }

/-- The single loop-body pass a firing performs (see `runFiring_closed`):
attempt number 1, entered at the firing start against the firing's deadline. -/
def firstStep (cfg : JobConfig) (env : Nat → AttemptSpec) (start : Nat) : StepOut :=
  attemptStep cfg (goFields cfg.appCommand) (env 1) start
    (firingDeadline cfg start) 1 start

/-- Closed form of the retry loop: since `main.go` retries only after a
timeout-kill (`restartOnFail && killed`, line 176) and a timeout-kill leaves
the clock at the hard deadline, the loop performs at most one attempt — either
the gate refuses immediately, or the single attempt runs and any requested
restart is refused by the gate on the next iteration. -/
theorem runLoopGo_closed (cfg : JobConfig) (parts : List String)
    (env : Nat → AttemptSpec) (start : Nat) (deadline : Option Nat)
    (attempt now : Nat) :
    runLoopGo cfg parts env start deadline attempt now =
      if gateRefuses deadline now = true then
        { attempts := [], diagnostics := [Diag.gateRefused attempt],
          endTime := now, skipped := false, deadlineRefused := true }
      else
        let out := attemptStep cfg parts (env attempt) start deadline attempt now
        if out.retry = true then
          { attempts := [out.record],
            diagnostics := out.diags ++ [Diag.gateRefused (attempt + 1)],
            endTime := out.nextNow, skipped := false, deadlineRefused := true }
        else
          { attempts := [out.record], diagnostics := out.diags,
            endTime := out.nextNow, skipped := false, deadlineRefused := false } := by
  rw [runLoopGo]
  by_cases hg : gateRefuses deadline now = true
  · simp [hg]
  · simp only [hg, dite_false, dite_true, if_neg, if_pos]
    set out := attemptStep cfg parts (env attempt) start deadline attempt now with hout
    by_cases hr : out.retry = true
    · obtain ⟨d, hd, hlt, hnn⟩ :=
        attemptStep_retry cfg parts (env attempt) start deadline attempt now
          (by simpa using hg) hr
      simp only [hr, dite_true]
      rw [runLoopGo]
      have hrefuse : gateRefuses deadline out.nextNow = true := by
        rw [hd, hnn]
        simp [gateRefuses]
      simp [hrefuse]
    · simp [hr]

/-- Closed form of one firing: an empty command is skipped; otherwise the
initial gate check always passes (the deadline, when configured, lies strictly
after the firing start), exactly one attempt runs, and a retry request only
adds the `Kill deadline reached` refusal line. -/
theorem runFiring_closed (cfg : JobConfig) (env : Nat → AttemptSpec) (start : Nat) :
    runFiring cfg env start =
      if (goFields cfg.appCommand).length = 0 then
        { attempts := [], diagnostics := [Diag.executing, Diag.emptySkip],
          endTime := start, skipped := true, deadlineRefused := false }
      else
        if (firstStep cfg env start).retry = true then
          { attempts := [(firstStep cfg env start).record],
            diagnostics := firingHeadDiags cfg start ++
              (firstStep cfg env start).diags ++ [Diag.gateRefused 2],
            endTime := (firstStep cfg env start).nextNow, skipped := false,
            deadlineRefused := true }
        else
          { attempts := [(firstStep cfg env start).record],
            diagnostics := firingHeadDiags cfg start ++ (firstStep cfg env start).diags,
            endTime := (firstStep cfg env start).nextNow, skipped := false,
            deadlineRefused := false } := by
  rw [runFiring]
  by_cases hempty : (goFields cfg.appCommand).length = 0
  · simp [hempty]
  · have hgate : gateRefuses (firingDeadline cfg start) start = false := by
      by_cases hk : 0 < cfg.killAfterMin
      · have h1 : 1 ≤ cfg.killAfterMin.toNat := by omega
        have h2 : minuteNs ≤ cfg.killAfterMin.toNat * minuteNs := by
          calc minuteNs = 1 * minuteNs := (one_mul _).symm
          _ ≤ cfg.killAfterMin.toNat * minuteNs :=
            Nat.mul_le_mul_right _ h1
        simp only [firingDeadline, hk, if_pos, gateRefuses]
        have : ¬ (start + cfg.killAfterMin.toNat * minuteNs ≤ start) := by
          simp [minuteNs] at h2 ⊢
          omega
        simpa using this
      · simp [hk, firingDeadline, gateRefuses]
    simp only [hempty, if_neg, if_false]
    rw [runLoopGo_closed]
    simp only [hgate]
    by_cases hr : (firstStep cfg env start).retry = true <;>
      simp [firstStep, hr] <;> simp [firstStep] at hr <;> simp [hr]

/-- The attempt trace of the loop: empty if the gate refuses, otherwise the
single record of the attempt that ran (both with and without a retry request). -/
theorem runLoopGo_attempts (cfg : JobConfig) (parts : List String)
    (env : Nat → AttemptSpec) (start : Nat) (deadline : Option Nat)
    (attempt now : Nat) :
    (runLoopGo cfg parts env start deadline attempt now).attempts =
      if gateRefuses deadline now = true then []
      else [(attemptStep cfg parts (env attempt) start deadline attempt now).record] := by
  rw [runLoopGo_closed]
  by_cases hg : gateRefuses deadline now = true
  · simp [hg]
  · simp only [hg, if_false]
    by_cases hr :
        (attemptStep cfg parts (env attempt) start deadline attempt now).retry = true <;>
      simp [hr]

/-- The attempt trace of a firing: empty for an empty command, otherwise the
single record of `firstStep`. -/
theorem runFiring_attempts (cfg : JobConfig) (env : Nat → AttemptSpec) (start : Nat) :
    (runFiring cfg env start).attempts =
      if (goFields cfg.appCommand).length = 0 then []
      else [(firstStep cfg env start).record] := by
  rw [runFiring_closed]
  by_cases hempty : (goFields cfg.appCommand).length = 0
  · simp [hempty]
  · by_cases hr : (firstStep cfg env start).retry = true <;> simp [hempty, hr]

/-- The diagnostic stream of a firing, in closed form. -/
theorem runFiring_diags (cfg : JobConfig) (env : Nat → AttemptSpec) (start : Nat) :
    (runFiring cfg env start).diagnostics =
      if (goFields cfg.appCommand).length = 0 then [Diag.executing, Diag.emptySkip]
      else firingHeadDiags cfg start ++ (firstStep cfg env start).diags ++
        (if (firstStep cfg env start).retry = true then [Diag.gateRefused 2] else []) := by
  rw [runFiring_closed]
  by_cases hempty : (goFields cfg.appCommand).length = 0
  · simp [hempty]
  · by_cases hr : (firstStep cfg env start).retry = true <;> simp [hempty, hr]

/-- Field values of the record produced by one loop-body pass: the attempt
starts at the current clock, the gate-granted budget is the distance to the
deadline, the attempt ends after the time the child consumed, and the reported
duration is `time.Since(start)` — measured from the firing start, not from the
attempt start. -/
theorem attemptStep_record_fields (cfg : JobConfig) (parts : List String)
    (spec : AttemptSpec) (start : Nat) (deadline : Option Nat) (attempt now : Nat) :
    (attemptStep cfg parts spec start deadline attempt now).record.startTime = now ∧
    (attemptStep cfg parts spec start deadline attempt now).record.budget =
      deadline.map (fun d => d - now) ∧
    (attemptStep cfg parts spec start deadline attempt now).record.endTime =
      now + (attemptStep cfg parts spec start deadline attempt now).record.elapsed ∧
    (attemptStep cfg parts spec start deadline attempt now).record.reportedDuration =
      (attemptStep cfg parts spec start deadline attempt now).record.endTime - start := by
  obtain ⟨dur, outc, opok⟩ := spec
  cases outc <;> simp [attemptStep]

/-- With a configured deadline, an attempt never runs past it: the child is
cut off at the remaining budget. -/
theorem attemptStep_end_le (cfg : JobConfig) (parts : List String)
    (spec : AttemptSpec) (start : Nat) (d attempt now : Nat) (hlt : now < d) :
    (attemptStep cfg parts spec start (some d) attempt now).record.endTime ≤ d := by
  obtain ⟨dur, outc, opok⟩ := spec
  have hmin := Nat.min_le_right dur (d - now)
  cases outc <;> simp [attemptStep] <;> omega

/-- A successful run that finishes inside the remaining budget (or with no
deadline at all) is recorded with exit code 0, not killed, and never retried. -/
theorem attemptStep_success_not_killed (cfg : JobConfig) (parts : List String)
    (spec : AttemptSpec) (start : Nat) (deadline : Option Nat) (attempt now : Nat)
    (h2 : spec.outcome = ProcOutcome.success)
    (hnk : deadline = none ∨
      ∃ d, deadline = some d ∧ spec.procDuration < d - now) :
    (attemptStep cfg parts spec start deadline attempt now).record.killed = false ∧
    (attemptStep cfg parts spec start deadline attempt now).record.exitCode = 0 ∧
    (attemptStep cfg parts spec start deadline attempt now).retry = false := by
  obtain ⟨dur, outc, opok⟩ := spec
  simp only at h2
  subst h2
  rcases hnk with hnone | ⟨d, hd, hlt⟩
  · subst hnone
    simp [attemptStep]
  · subst hd
    simp only at hlt
    simp [attemptStep]
    omega

/-- When the log file was opened for the attempt, its event sequence is exactly:
one append-mode create-if-absent open, one RUN START marker stamped at the
attempt start, the teed child output, one RUN END marker stamped at the attempt
end carrying the recorded exit code and the reported duration, and a final
close. -/
theorem attemptStep_fileEvents (cfg : JobConfig) (parts : List String)
    (spec : AttemptSpec) (start : Nat) (deadline : Option Nat) (attempt now : Nat)
    (hop : (attemptStep cfg parts spec start deadline attempt now).record.openedLog = true) :
    (attemptStep cfg parts spec start deadline attempt now).record.fileEvents =
      [FileEvent.openFile true true true,
       FileEvent.runStart
         ((attemptStep cfg parts spec start deadline attempt now).record.startTime),
       FileEvent.childOut,
       FileEvent.runEnd
         ((attemptStep cfg parts spec start deadline attempt now).record.endTime)
         ((attemptStep cfg parts spec start deadline attempt now).record.exitCode)
         ((attemptStep cfg parts spec start deadline attempt now).record.reportedDuration),
       FileEvent.close] := by
  obtain ⟨dur, outc, opok⟩ := spec
  cases outc <;> simp [attemptStep] at hop ⊢ <;> simp [hop]

/-- A timeout-killed attempt keeps the initial `exitCode := 0` (the
extraction branch of lines 160-164 is skipped), and its exit diagnostic line
reports exit code 0 with a non-nil error. -/
theorem attemptStep_killed_exit_zero (cfg : JobConfig) (parts : List String)
    (spec : AttemptSpec) (start : Nat) (deadline : Option Nat) (attempt now : Nat)
    (hkill : (attemptStep cfg parts spec start deadline attempt now).record.killed = true) :
    (attemptStep cfg parts spec start deadline attempt now).record.exitCode = 0 ∧
    Diag.exited
      ((attemptStep cfg parts spec start deadline attempt now).record.reportedDuration)
      0 true ∈ (attemptStep cfg parts spec start deadline attempt now).diags := by
  obtain ⟨dur, outc, opok⟩ := spec
  cases deadline <;> cases outc <;>
    simp [attemptStep] at hkill ⊢ <;>
    simp [hkill]

/-- The exit diagnostic of line 174 is always printed, carrying the attempt's
reported duration and recorded exit code. -/
theorem attemptStep_exited_mem (cfg : JobConfig) (parts : List String)
    (spec : AttemptSpec) (start : Nat) (deadline : Option Nat) (attempt now : Nat) :
    ∃ e, Diag.exited
      ((attemptStep cfg parts spec start deadline attempt now).record.reportedDuration)
      ((attemptStep cfg parts spec start deadline attempt now).record.exitCode)
      e ∈ (attemptStep cfg parts spec start deadline attempt now).diags := by
  obtain ⟨dur, outc, opok⟩ := spec
  cases outc <;> simp [attemptStep]

/-- When the log file open fails, the loop-body pass behaves exactly as with
no log file configured, except for the one `Failed to open LOG_FILE`
diagnostic: same record, same retry decision, same clock. -/
theorem attemptStep_openFail (cfg : JobConfig) (parts : List String)
    (spec : AttemptSpec) (start : Nat) (deadline : Option Nat) (attempt now : Nat)
    (hp : cfg.logFilePath ≠ "") (ho : spec.openOk = false) :
    (attemptStep cfg parts spec start deadline attempt now).record =
      (attemptStep { cfg with logFilePath := "" } parts spec start deadline
        attempt now).record ∧
    (attemptStep cfg parts spec start deadline attempt now).retry =
      (attemptStep { cfg with logFilePath := "" } parts spec start deadline
        attempt now).retry ∧
    (attemptStep cfg parts spec start deadline attempt now).diags =
      Diag.openFailed ::
        (attemptStep { cfg with logFilePath := "" } parts spec start deadline
          attempt now).diags := by
  obtain ⟨dur, outc, opok⟩ := spec
  simp only at ho
  subst ho
  cases outc <;> simp [attemptStep, hp]

/-- With no log file configured, the loop-body pass never reports an open
failure. -/
theorem attemptStep_diags_noLog (cfg : JobConfig) (parts : List String)
    (spec : AttemptSpec) (start : Nat) (deadline : Option Nat) (attempt now : Nat)
    (hp : cfg.logFilePath = "") :
    ∀ d ∈ (attemptStep cfg parts spec start deadline attempt now).diags,
      d.isOpenFail = false := by
  obtain ⟨dur, outc, opok⟩ := spec
  intro d hd
  cases d <;> try rfl
  exfalso
  cases outc <;>
    simp [attemptStep, hp] at hd <;>
    first
      | exact hd
      | (split_ifs at hd <;> simp_all)

/-- The pre-loop diagnostics never report an open failure. -/
theorem firingHeadDiags_noOpenFail (cfg : JobConfig) (start : Nat) :
    ∀ d ∈ firingHeadDiags cfg start, d.isOpenFail = false := by
  intro d hd
  cases d <;> try rfl
  exfalso
  by_cases hk : 0 < cfg.killAfterMin <;> simp [firingHeadDiags, hk] at hd

/-- A firing that kills its only attempt at the one-minute deadline: the child
would run two minutes, `restartOnFail` is enabled. -/
def cfgKill : JobConfig := ⟨"sleep 600", 1, "", true⟩

/-- Oracle for `cfgKill`: every attempt would run two minutes and end in
success, and the log open (irrelevant here) would succeed. -/
def envKill : Nat → AttemptSpec := fun _ => ⟨2 * minuteNs, ProcOutcome.success, true⟩

/-- The record `cfgKill`/`envKill` produce for attempt 1 of a firing at time 0:
killed at the deadline after consuming the whole one-minute budget, exit code
recorded as 0. -/
def recKill : AttemptRecord :=
  ⟨1, ["sleep", "600"], 0, some minuteNs, minuteNs, minuteNs, 0, true, minuteNs,
   false, []⟩

/-- Claim C1: for every firing with a configured deadline, an attempt that the
deadline terminated (`killed = true`) is the last attempt of the firing — no
further attempt is made, regardless of `restartOnFail` (the restart branch may
run once more through the gate, which refuses to start an attempt). -/
theorem C1_timeout_kill_is_final (cfg : JobConfig) (env : Nat → AttemptSpec)
    (start : Nat) (_hk : 0 < cfg.killAfterMin) :
    ∀ rec ∈ (runFiring cfg env start).attempts, rec.killed = true →
      (runFiring cfg env start).attempts = [rec] := by
  intro rec hmem _
  rw [runFiring_attempts] at hmem ⊢
  by_cases hempty : (goFields cfg.appCommand).length = 0
  · simp [hempty] at hmem
  · simp only [if_neg hempty] at hmem ⊢
    simp at hmem
    simp [hmem]

/-- Witness for C1: one-minute deadline, a child that would run two minutes,
`restartOnFail = true` — the killed first attempt is the only attempt. -/
theorem C1_witness :
    0 < cfgKill.killAfterMin ∧ recKill.killed = true ∧
    (runFiring cfgKill envKill 0).attempts = [recKill] := by
  have hmem : recKill ∈ (runFiring cfgKill envKill 0).attempts := by
    rw [runFiring_attempts]
    decide
  exact ⟨by decide, rfl,
    C1_timeout_kill_is_final cfgKill envKill 0 (by decide) recKill hmem rfl⟩

/-- A firing whose command always exits 1, with `restartOnFail` enabled and no
deadline. -/
def cfgFail : JobConfig := ⟨"false", 0, "", true⟩

/-- Oracle for `cfgFail`: every attempt runs for 1000ns and exits with code 1. -/
def envFail : Nat → AttemptSpec := fun _ => ⟨1000, ProcOutcome.exitErr 1, true⟩

/-- Claim C2 fails on the code: with `restartOnFail = true`, no deadline, and a
command that always exits 1 (so no attempt ever succeeds and no deadline can be
exhausted), the firing still stops after exactly one attempt — the restart
branch of line 176 fires only on `killed`, so an ordinary nonzero exit is never
retried and attempts do not repeat until a success. -/
theorem C2_counterexample :
    cfgFail.restartOnFail = true ∧
    cfgFail.killAfterMin = 0 ∧
    (envFail 1).outcome = ProcOutcome.exitErr 1 ∧
    (envFail 2).outcome = ProcOutcome.exitErr 1 ∧
    (runFiring cfgFail envFail 0).attempts.length = 1 ∧
    (runFiring cfgFail envFail 0).attempts.map AttemptRecord.exitCode = [1] ∧
    (runFiring cfgFail envFail 0).attempts.map AttemptRecord.killed = [false] := by
  refine ⟨rfl, rfl, rfl, rfl, ?_, ?_, ?_⟩ <;>
    (rw [runFiring_attempts]; decide)

/-- Claim C2 as amended: for every command that exits nonzero, the firing
reaches `Done` after exactly one attempt when `restartOnFail` is false — and
also when it is true, because the restart branch requires a timeout-kill, and
a restart after a timeout-kill is immediately refused by the deadline gate.
Every firing with a nonempty command performs exactly one attempt. -/
theorem C2_amended_one_attempt (cfg : JobConfig) (env : Nat → AttemptSpec)
    (start : Nat) (h : goFields cfg.appCommand ≠ []) :
    (runFiring cfg env start).attempts.length = 1 := by
  rw [runFiring_attempts]
  have hlen : ¬ (goFields cfg.appCommand).length = 0 := by
    simpa [List.length_eq_zero] using h
  simp [hlen]

/-- Witness for the amended C2: the always-failing command with
`restartOnFail = true` performs exactly one attempt. -/
theorem C2_amended_witness :
    goFields cfgFail.appCommand ≠ [] ∧
    (runFiring cfgFail envFail 0).attempts.length = 1 :=
  ⟨by decide, C2_amended_one_attempt cfgFail envFail 0 (by decide)⟩

/-- Claim C3: a command that exits with code 0 (and is not cut off by the
deadline) concludes the firing after exactly one attempt, recorded with exit
code 0 and not killed, for either value of `restartOnFail`. -/
theorem C3_success_one_attempt (cfg : JobConfig) (env : Nat → AttemptSpec)
    (start : Nat) (h1 : goFields cfg.appCommand ≠ [])
    (h2 : (env 1).outcome = ProcOutcome.success)
    (h3 : cfg.killAfterMin ≤ 0 ∨
      (env 1).procDuration < cfg.killAfterMin.toNat * minuteNs) :
    (runFiring cfg env start).attempts.length = 1 ∧
    (runFiring cfg env start).attempts.map AttemptRecord.exitCode = [0] ∧
    (runFiring cfg env start).attempts.map AttemptRecord.killed = [false] ∧
    (runFiring cfg env start).deadlineRefused = false := by
  have hlen : ¬ (goFields cfg.appCommand).length = 0 := by
    simpa [List.length_eq_zero] using h1
  have hnk : firingDeadline cfg start = none ∨
      ∃ d, firingDeadline cfg start = some d ∧
        (env 1).procDuration < d - start := by
    by_cases hk : 0 < cfg.killAfterMin
    · right
      refine ⟨start + cfg.killAfterMin.toNat * minuteNs,
        by simp [firingDeadline, hk], ?_⟩
      rcases h3 with h3 | h3
      · omega
      · omega
    · left
      simp [firingDeadline, hk]
  obtain ⟨hkill, hexit, hretry⟩ :=
    attemptStep_success_not_killed cfg (goFields cfg.appCommand) (env 1) start
      (firingDeadline cfg start) 1 start h2 hnk
  refine ⟨?_, ?_, ?_, ?_⟩
  · rw [runFiring_attempts]
    simp [hlen]
  · rw [runFiring_attempts]
    simp only [if_neg hlen, List.map]
    simp [firstStep, hexit]
  · rw [runFiring_attempts]
    simp only [if_neg hlen, List.map]
    simp [firstStep, hkill]
  · rw [runFiring_closed]
    simp only [if_neg hlen]
    simp [firstStep, hretry]

/-- A firing whose command exits 0 after 1000ns, with `restartOnFail` enabled
and no deadline. -/
def cfgOk : JobConfig := ⟨"true", 0, "", true⟩

/-- Oracle for `cfgOk`: every attempt runs 1000ns and succeeds. -/
def envOk : Nat → AttemptSpec := fun _ => ⟨1000, ProcOutcome.success, true⟩

/-- Witness for C3: the succeeding command with `restartOnFail = true` makes
exactly one attempt, exit code 0, not killed. -/
theorem C3_witness :
    goFields cfgOk.appCommand ≠ [] ∧
    (envOk 1).outcome = ProcOutcome.success ∧
    cfgOk.restartOnFail = true ∧
    ((runFiring cfgOk envOk 0).attempts.length = 1 ∧
     (runFiring cfgOk envOk 0).attempts.map AttemptRecord.exitCode = [0] ∧
     (runFiring cfgOk envOk 0).attempts.map AttemptRecord.killed = [false] ∧
     (runFiring cfgOk envOk 0).deadlineRefused = false) :=
  ⟨by decide, rfl, rfl,
   C3_success_one_attempt cfgOk envOk 0 (by decide) rfl (Or.inl (by decide))⟩

/-- Claim C8: a command with no tokens after whitespace-splitting is skipped:
the firing produces exactly the `Executing` line and the single
`Empty command, skipping execution` line, makes no attempt (hence spawns no
child, opens no log file and writes no markers), ends at the firing start, and
is not an error (the skipped flag, not the deadline-refusal path). -/
theorem C8_empty_command (cfg : JobConfig) (env : Nat → AttemptSpec)
    (start : Nat) (h : goFields cfg.appCommand = []) :
    runFiring cfg env start =
      { attempts := [], diagnostics := [Diag.executing, Diag.emptySkip],
        endTime := start, skipped := true, deadlineRefused := false } := by
  rw [runFiring_closed]
  simp [h]

/-- A configuration whose command is pure whitespace (no tokens), with a
deadline, a log path and `restartOnFail` all configured. -/
def cfgEmpty : JobConfig := ⟨" \t ", 2, "out.log", true⟩

/-- Witness for C8: the whitespace command is skipped with no attempts and only
the two pre-loop diagnostic lines. -/
theorem C8_witness :
    goFields cfgEmpty.appCommand = [] ∧
    runFiring cfgEmpty envOk 0 =
      { attempts := [], diagnostics := [Diag.executing, Diag.emptySkip],
        endTime := 0, skipped := true, deadlineRefused := false } :=
  ⟨by decide, C8_empty_command cfgEmpty envOk 0 (by decide)⟩

/-- The diagnostic lines of the loop, in closed form. -/
theorem runLoopGo_diags (cfg : JobConfig) (parts : List String)
    (env : Nat → AttemptSpec) (start : Nat) (deadline : Option Nat)
    (attempt now : Nat) :
    (runLoopGo cfg parts env start deadline attempt now).diagnostics =
      if gateRefuses deadline now = true then [Diag.gateRefused attempt]
      else (attemptStep cfg parts (env attempt) start deadline attempt now).diags ++
        (if (attemptStep cfg parts (env attempt) start deadline attempt now).retry = true
         then [Diag.gateRefused (attempt + 1)] else []) := by
  rw [runLoopGo_closed]
  by_cases hg : gateRefuses deadline now = true
  · simp [hg]
  · simp only [hg, if_false]
    by_cases hr :
        (attemptStep cfg parts (env attempt) start deadline attempt now).retry = true <;>
      simp [hr]

/-- With a positive `killAfterMin` the hard deadline lies strictly after the
firing start. -/
theorem firingDeadline_lt (cfg : JobConfig) (start : Nat)
    (hk : 0 < cfg.killAfterMin) :
    start < start + cfg.killAfterMin.toNat * minuteNs := by
  have h1 : 1 ≤ cfg.killAfterMin.toNat := by omega
  have h2 : minuteNs ≤ cfg.killAfterMin.toNat * minuteNs := by
    calc minuteNs = 1 * minuteNs := (one_mul _).symm
    _ ≤ cfg.killAfterMin.toNat * minuteNs := Nat.mul_le_mul_right _ h1
  have h3 : 0 < minuteNs := by decide
  omega

/-- Claim C4: the deadline of a firing is the single fixed instant
`firingStart + killAfter`; every attempt of the retry loop — whatever attempt
number or clock it starts at — has its gate budget measured as the distance
from its own start to that same instant (so the budget shrinks cumulatively as
attempts consume time and is never reset), and no attempt runs past it.  In a
firing, the first attempt starts at the firing start with the full budget. -/
theorem C4_fixed_deadline (cfg : JobConfig) (parts : List String)
    (env : Nat → AttemptSpec) (start attempt now : Nat)
    (hk : 0 < cfg.killAfterMin) :
    (∀ rec ∈ (runLoopGo cfg parts env start
        (some (start + cfg.killAfterMin.toNat * minuteNs)) attempt now).attempts,
      rec.budget =
        some ((start + cfg.killAfterMin.toNat * minuteNs) - rec.startTime) ∧
      rec.endTime ≤ start + cfg.killAfterMin.toNat * minuteNs) ∧
    (∀ rec ∈ (runFiring cfg env start).attempts,
      rec.startTime = start ∧
      rec.budget = some (cfg.killAfterMin.toNat * minuteNs) ∧
      rec.endTime ≤ start + cfg.killAfterMin.toNat * minuteNs) := by
  constructor
  · intro rec hmem
    rw [runLoopGo_attempts] at hmem
    by_cases hg : gateRefuses
        (some (start + cfg.killAfterMin.toNat * minuteNs)) now = true
    · simp [hg] at hmem
    · rw [if_neg hg] at hmem
      simp at hmem
      subst hmem
      obtain ⟨hst, hbud, hend, hdur⟩ :=
        attemptStep_record_fields cfg parts (env attempt) start
          (some (start + cfg.killAfterMin.toNat * minuteNs)) attempt now
      have hlt : now < start + cfg.killAfterMin.toNat * minuteNs := by
        simp [gateRefuses] at hg
        omega
      refine ⟨?_, attemptStep_end_le cfg parts (env attempt) start _ attempt now hlt⟩
      rw [hbud, hst]
      simp
  · intro rec hmem
    rw [runFiring_attempts] at hmem
    by_cases hempty : (goFields cfg.appCommand).length = 0
    · simp [hempty] at hmem
    · rw [if_neg hempty] at hmem
      simp at hmem
      subst hmem
      obtain ⟨hst, hbud, hend, hdur⟩ :=
        attemptStep_record_fields cfg (goFields cfg.appCommand) (env 1) start
          (firingDeadline cfg start) 1 start
      have hdl : firingDeadline cfg start =
          some (start + cfg.killAfterMin.toNat * minuteNs) := by
        simp [firingDeadline, hk]
      refine ⟨?_, ?_, ?_⟩
      · simpa [firstStep] using hst
      · have : (firstStep cfg env start).record.budget =
            some ((start + cfg.killAfterMin.toNat * minuteNs) - start) := by
          rw [firstStep, hbud, hdl]
          simp
        simpa using this
      · have := attemptStep_end_le cfg (goFields cfg.appCommand) (env 1) start
          (start + cfg.killAfterMin.toNat * minuteNs) 1 start
          (firingDeadline_lt cfg start hk)
        simpa [firstStep, hdl] using this

/-- Witness for C4: in the killed firing, the single attempt starts at the
firing start with the full one-minute budget and ends exactly at the deadline. -/
theorem C4_witness :
    0 < cfgKill.killAfterMin ∧
    recKill.startTime = 0 ∧
    recKill.budget = some (cfgKill.killAfterMin.toNat * minuteNs) ∧
    recKill.endTime ≤ 0 + cfgKill.killAfterMin.toNat * minuteNs := by
  have hmem : recKill ∈ (runFiring cfgKill envKill 0).attempts := by
    rw [runFiring_attempts]
    decide
  obtain ⟨h1, h2, h3⟩ :=
    (C4_fixed_deadline cfgKill ["sleep", "600"] envKill 0 1 0 (by decide)).2
      recKill hmem
  exact ⟨by decide, h1, h2, h3⟩

/-- Claim C5: when the remaining budget is exhausted at the moment a new
attempt would start (`remaining ≤ 0`, i.e. the deadline instant is not in the
future), the loop refuses to start it: no attempt record is produced, the only
output is the `Kill deadline reached` line, and the firing terminates at that
same clock.  Conversely every attempt that does start does so strictly before
the deadline — never with zero or negative budget. -/
theorem C5_expired_gate (cfg : JobConfig) (parts : List String)
    (env : Nat → AttemptSpec) (start attempt now : Nat)
    (_hk : 0 < cfg.killAfterMin) :
    (start + cfg.killAfterMin.toNat * minuteNs ≤ now →
      runLoopGo cfg parts env start
        (some (start + cfg.killAfterMin.toNat * minuteNs)) attempt now =
        { attempts := [], diagnostics := [Diag.gateRefused attempt],
          endTime := now, skipped := false, deadlineRefused := true }) ∧
    (∀ rec ∈ (runLoopGo cfg parts env start
        (some (start + cfg.killAfterMin.toNat * minuteNs)) attempt now).attempts,
      rec.startTime < start + cfg.killAfterMin.toNat * minuteNs) := by
  constructor
  · intro hexp
    rw [runLoopGo_closed]
    have hg : gateRefuses
        (some (start + cfg.killAfterMin.toNat * minuteNs)) now = true := by
      simp [gateRefuses]
      omega
    simp [hg]
  · intro rec hmem
    rw [runLoopGo_attempts] at hmem
    by_cases hg : gateRefuses
        (some (start + cfg.killAfterMin.toNat * minuteNs)) now = true
    · simp [hg] at hmem
    · rw [if_neg hg] at hmem
      simp at hmem
      subst hmem
      have hst := (attemptStep_record_fields cfg parts (env attempt) start
        (some (start + cfg.killAfterMin.toNat * minuteNs)) attempt now).1
      rw [hst]
      simp [gateRefuses] at hg
      omega

/-- Witness for C5: entering the loop exactly at the deadline instant refuses
the attempt and terminates immediately. -/
theorem C5_witness :
    runLoopGo cfgKill ["sleep", "600"] envKill 0
      (some (0 + cfgKill.killAfterMin.toNat * minuteNs)) 2
      (0 + cfgKill.killAfterMin.toNat * minuteNs) =
      { attempts := [], diagnostics := [Diag.gateRefused 2],
        endTime := 0 + cfgKill.killAfterMin.toNat * minuteNs, skipped := false,
        deadlineRefused := true } :=
  (C5_expired_gate cfgKill ["sleep", "600"] envKill 0 2
    (0 + cfgKill.killAfterMin.toNat * minuteNs) (by decide)).1 (le_refl _)

/-- Claim C9: the duration reported for an attempt — in the exit diagnostic of
line 174 and in the RUN END marker — is `time.Since(start)`: the elapsed time
since the *firing* start, not since the attempt's own start.  For an attempt
entered at clock `now`, the reported value is the attempt's end time minus the
firing start, which equals the time elapsed before the attempt began plus the
attempt's own run time. -/
theorem C9_duration_since_firing_start (cfg : JobConfig) (parts : List String)
    (env : Nat → AttemptSpec) (start : Nat) (deadline : Option Nat)
    (attempt now : Nat) (hsn : start ≤ now) :
    ∀ rec ∈ (runLoopGo cfg parts env start deadline attempt now).attempts,
      rec.reportedDuration = rec.endTime - start ∧
      rec.reportedDuration = (rec.startTime - start) + rec.elapsed ∧
      (rec.openedLog = true →
        FileEvent.runEnd rec.endTime rec.exitCode rec.reportedDuration ∈
          rec.fileEvents) ∧
      (∃ e, Diag.exited rec.reportedDuration rec.exitCode e ∈
        (runLoopGo cfg parts env start deadline attempt now).diagnostics) := by
  intro rec hmem
  rw [runLoopGo_attempts] at hmem
  by_cases hg : gateRefuses deadline now = true
  · simp [hg] at hmem
  · rw [if_neg hg] at hmem
    simp at hmem
    subst hmem
    obtain ⟨hst, hbud, hend, hdur⟩ :=
      attemptStep_record_fields cfg parts (env attempt) start deadline attempt now
    refine ⟨hdur, ?_, ?_, ?_⟩
    · rw [hdur, hend, hst]
      omega
    · intro hop
      rw [attemptStep_fileEvents cfg parts (env attempt) start deadline attempt
        now hop]
      simp
    · obtain ⟨e, he⟩ :=
        attemptStep_exited_mem cfg parts (env attempt) start deadline attempt now
      refine ⟨e, ?_⟩
      rw [runLoopGo_diags]
      rw [if_neg hg]
      simp [he]

/-- The record produced by the second attempt of a hypothetical loop state
entered at clock 5 of a firing that started at clock 0: its reported duration
is 1005 — the cumulative elapsed time — although the attempt itself ran for
1000. -/
def recLate : AttemptRecord :=
  ⟨2, ["false"], 5, none, 1000, 1005, 1, false, 1005, false, []⟩

/-- Witness for C9: an attempt entered mid-firing reports the time since the
firing start (1005), not its own run time (1000). -/
theorem C9_witness :
    (0 : Nat) ≤ 5 ∧
    recLate.reportedDuration = recLate.endTime - 0 ∧
    recLate.reportedDuration = (recLate.startTime - 0) + recLate.elapsed ∧
    recLate.elapsed = 1000 ∧ recLate.reportedDuration = 1005 := by
  have hmem : recLate ∈ (runLoopGo cfgFail ["false"] envFail 0 none 2 5).attempts := by
    rw [runLoopGo_attempts]
    decide
  obtain ⟨h1, h2, _⟩ :=
    C9_duration_since_firing_start cfgFail ["false"] envFail 0 none 2 5
      (by omega) recLate hmem
  exact ⟨by omega, h1, h2, rfl, rfl⟩

/-- When the open fails, the attempt is not teed: no file handle, no events. -/
theorem attemptStep_openFail_record (cfg : JobConfig) (parts : List String)
    (spec : AttemptSpec) (start : Nat) (deadline : Option Nat) (attempt now : Nat)
    (ho : spec.openOk = false) :
    (attemptStep cfg parts spec start deadline attempt now).record.openedLog = false ∧
    (attemptStep cfg parts spec start deadline attempt now).record.fileEvents = [] := by
  obtain ⟨dur, outc, opok⟩ := spec
  simp only at ho
  subst ho
  cases outc <;> simp [attemptStep]

/-- Claim C6: in every attempt whose log file open succeeded, the file sees
exactly this event sequence: one open in append mode with create-if-absent
(and write-only), one RUN START marker stamped at the attempt start, the teed
child output, one RUN END marker stamped at the attempt end carrying the
recorded exit code and the reported duration (also when the attempt was
timeout-killed), and one close — the handle never outlives the attempt. -/
theorem C6_log_markers (cfg : JobConfig) (env : Nat → AttemptSpec) (start : Nat)
    (_hp : cfg.logFilePath ≠ "") :
    ∀ rec ∈ (runFiring cfg env start).attempts, rec.openedLog = true →
      rec.fileEvents =
        [FileEvent.openFile true true true,
         FileEvent.runStart rec.startTime,
         FileEvent.childOut,
         FileEvent.runEnd rec.endTime rec.exitCode rec.reportedDuration,
         FileEvent.close] := by
  intro rec hmem hop
  rw [runFiring_attempts] at hmem
  by_cases hempty : (goFields cfg.appCommand).length = 0
  · simp [hempty] at hmem
  · rw [if_neg hempty] at hmem
    simp at hmem
    subst hmem
    exact attemptStep_fileEvents cfg (goFields cfg.appCommand) (env 1) start
      (firingDeadline cfg start) 1 start hop

/-- A logged firing whose command succeeds after 1000ns. -/
def cfgLog : JobConfig := ⟨"echo hi", 0, "run.log", false⟩

/-- Oracle for `cfgLog`: the child runs 1000ns and succeeds; the log file
opens. -/
def envLog : Nat → AttemptSpec := fun _ => ⟨1000, ProcOutcome.success, true⟩

/-- The record `cfgLog`/`envLog` produce: one bracketed, teed attempt. -/
def recLog : AttemptRecord :=
  ⟨1, ["echo", "hi"], 0, none, 1000, 1000, 0, false, 1000, true,
   [FileEvent.openFile true true true, FileEvent.runStart 0, FileEvent.childOut,
    FileEvent.runEnd 1000 0 1000, FileEvent.close]⟩

/-- Witness for C6: the logged successful attempt carries exactly the bracketed
event sequence. -/
theorem C6_witness :
    cfgLog.logFilePath ≠ "" ∧ recLog.openedLog = true ∧
    recLog.fileEvents =
      [FileEvent.openFile true true true,
       FileEvent.runStart recLog.startTime,
       FileEvent.childOut,
       FileEvent.runEnd recLog.endTime recLog.exitCode recLog.reportedDuration,
       FileEvent.close] := by
  have hmem : recLog ∈ (runFiring cfgLog envLog 0).attempts := by
    rw [runFiring_attempts]
    decide
  exact ⟨by decide, rfl, C6_log_markers cfgLog envLog 0 (by decide) recLog hmem rfl⟩

/-- Claim C7: a failing log-file open is non-fatal.  With a configured log path
whose open always fails, the firing produces exactly the same attempt records
as a firing with no log path at all (the attempt still executes, with the
standard streams as the only destinations: nothing is teed, no file events);
the diagnostic stream is the same except for the open-failure report, which
appears exactly once per attempt; and the firing is never aborted. -/
theorem C7_open_failure_nonfatal (cfg : JobConfig) (env : Nat → AttemptSpec)
    (start : Nat) (hp : cfg.logFilePath ≠ "")
    (ho : ∀ n, (env n).openOk = false) :
    (runFiring cfg env start).attempts =
      (runFiring { cfg with logFilePath := "" } env start).attempts ∧
    (runFiring cfg env start).diagnostics.filter (fun d => !(Diag.isOpenFail d)) =
      (runFiring { cfg with logFilePath := "" } env start).diagnostics ∧
    (runFiring cfg env start).diagnostics.countP Diag.isOpenFail =
      (runFiring cfg env start).attempts.length ∧
    (∀ rec ∈ (runFiring cfg env start).attempts,
      rec.openedLog = false ∧ rec.fileEvents = []) := by
  obtain ⟨hrec, hretry, hdiags⟩ :=
    attemptStep_openFail cfg (goFields cfg.appCommand) (env 1) start
      (firingDeadline cfg start) 1 start hp (ho 1)
  have hfsF : firstStep cfg env start =
      attemptStep cfg (goFields cfg.appCommand) (env 1) start
        (firingDeadline cfg start) 1 start := rfl
  have hfsN : firstStep { cfg with logFilePath := "" } env start =
      attemptStep { cfg with logFilePath := "" } (goFields cfg.appCommand) (env 1)
        start (firingDeadline cfg start) 1 start := rfl
  have happ : ({ cfg with logFilePath := "" } : JobConfig).appCommand =
      cfg.appCommand := rfl
  have hhd : firingHeadDiags { cfg with logFilePath := "" } start =
      firingHeadDiags cfg start := rfl
  have hfa : (firingHeadDiags cfg start).filter (fun d => !(Diag.isOpenFail d)) =
      firingHeadDiags cfg start := by
    rw [List.filter_eq_self]
    intro a ha
    simp [firingHeadDiags_noOpenFail cfg start a ha]
  have hfb : ((attemptStep { cfg with logFilePath := "" }
        (goFields cfg.appCommand) (env 1) start (firingDeadline cfg start) 1
        start).diags).filter (fun d => !(Diag.isOpenFail d)) =
      (attemptStep { cfg with logFilePath := "" } (goFields cfg.appCommand)
        (env 1) start (firingDeadline cfg start) 1 start).diags := by
    rw [List.filter_eq_self]
    intro a ha
    simp [attemptStep_diags_noLog _ _ _ _ _ _ _ rfl a ha]
  have hcb : ((attemptStep { cfg with logFilePath := "" }
        (goFields cfg.appCommand) (env 1) start (firingDeadline cfg start) 1
        start).diags).countP Diag.isOpenFail = 0 := by
    rw [List.countP_eq_zero]
    intro a ha
    simp [attemptStep_diags_noLog _ _ _ _ _ _ _ rfl a ha]
  have hca : (firingHeadDiags cfg start).countP Diag.isOpenFail = 0 := by
    rw [List.countP_eq_zero]
    intro a ha
    simp [firingHeadDiags_noOpenFail cfg start a ha]
  refine ⟨?_, ?_, ?_, ?_⟩
  · rw [runFiring_attempts, runFiring_attempts, happ]
    by_cases hempty : (goFields cfg.appCommand).length = 0
    · simp [hempty]
    · simp [hempty, hfsF, hfsN, hrec]
  · rw [runFiring_diags, runFiring_diags, happ, hhd]
    by_cases hempty : (goFields cfg.appCommand).length = 0
    · simp [hempty, Diag.isOpenFail]
    · simp only [hempty, if_false, hfsF, hfsN]
      rw [hdiags, hretry]
      rw [List.filter_append, List.filter_append, hfa]
      rw [List.filter_cons]
      have : (!(Diag.isOpenFail Diag.openFailed)) = false := rfl
      rw [this]
      rw [hfb]
      congr 1
      by_cases hr : (attemptStep { cfg with logFilePath := "" }
          (goFields cfg.appCommand) (env 1) start (firingDeadline cfg start) 1
          start).retry = true <;>
        simp [hr, Diag.isOpenFail]
  · rw [runFiring_diags, runFiring_attempts]
    by_cases hempty : (goFields cfg.appCommand).length = 0
    · simp [hempty, Diag.isOpenFail]
    · simp only [hempty, if_false, hfsF]
      rw [hdiags, hretry]
      rw [List.countP_append, List.countP_append, hca]
      rw [List.countP_cons]
      have : Diag.isOpenFail Diag.openFailed = true := rfl
      rw [this]
      rw [hcb]
      have hct : ((if (attemptStep { cfg with logFilePath := "" }
          (goFields cfg.appCommand) (env 1) start (firingDeadline cfg start) 1
          start).retry = true then [Diag.gateRefused 2] else
            ([] : List Diag))).countP Diag.isOpenFail = 0 := by
        by_cases hr : (attemptStep { cfg with logFilePath := "" }
            (goFields cfg.appCommand) (env 1) start (firingDeadline cfg start) 1
            start).retry = true <;>
          simp [hr, Diag.isOpenFail]
      rw [hct]
      simp
  · intro rec hmem
    rw [runFiring_attempts] at hmem
    by_cases hempty : (goFields cfg.appCommand).length = 0
    · simp [hempty] at hmem
    · rw [if_neg hempty] at hmem
      simp at hmem
      subst hmem
      exact attemptStep_openFail_record cfg (goFields cfg.appCommand) (env 1)
        start (firingDeadline cfg start) 1 start (ho 1)

/-- A logged firing whose log open always fails. -/
def cfgLogFail : JobConfig := ⟨"echo hi", 0, "run.log", false⟩

/-- Oracle for `cfgLogFail`: the child runs 1000ns and succeeds, but the log
file never opens. -/
def envOpenFail : Nat → AttemptSpec := fun _ => ⟨1000, ProcOutcome.success, false⟩

/-- Witness for C7: the open-failing firing runs its attempt exactly as the
unlogged one, and reports the failure once. -/
theorem C7_witness :
    cfgLogFail.logFilePath ≠ "" ∧
    (runFiring cfgLogFail envOpenFail 0).attempts =
      (runFiring { cfgLogFail with logFilePath := "" } envOpenFail 0).attempts ∧
    (runFiring cfgLogFail envOpenFail 0).diagnostics.countP Diag.isOpenFail =
      (runFiring cfgLogFail envOpenFail 0).attempts.length := by
  have h := C7_open_failure_nonfatal cfgLogFail envOpenFail 0 (by decide)
    (fun _ => rfl)
  exact ⟨by decide, h.1, h.2.2.1⟩

/-- Claim C10 (implicit): a timeout-killed attempt keeps the initial
`exitCode := 0`, so both the RUN END marker — whose format carries no timeout
flag — and the exit-code field of the exit diagnostic report exit code 0, the
same values a successful run of the same timing would produce in the log file. -/
theorem C10_timeout_reports_exit_zero (cfg : JobConfig) (env : Nat → AttemptSpec)
    (start : Nat) :
    ∀ rec ∈ (runFiring cfg env start).attempts, rec.killed = true →
      rec.exitCode = 0 ∧
      (rec.openedLog = true →
        rec.fileEvents =
          [FileEvent.openFile true true true,
           FileEvent.runStart rec.startTime,
           FileEvent.childOut,
           FileEvent.runEnd rec.endTime 0 rec.reportedDuration,
           FileEvent.close]) ∧
      Diag.exited rec.reportedDuration 0 true ∈
        (runFiring cfg env start).diagnostics := by
  intro rec hmem hkill
  rw [runFiring_attempts] at hmem
  by_cases hempty : (goFields cfg.appCommand).length = 0
  · simp [hempty] at hmem
  · rw [if_neg hempty] at hmem
    simp at hmem
    subst hmem
    simp only [firstStep] at hkill ⊢
    obtain ⟨hexit, hdiag⟩ :=
      attemptStep_killed_exit_zero cfg (goFields cfg.appCommand) (env 1) start
        (firingDeadline cfg start) 1 start hkill
    refine ⟨hexit, ?_, ?_⟩
    · intro hop
      have hev := attemptStep_fileEvents cfg (goFields cfg.appCommand) (env 1)
        start (firingDeadline cfg start) 1 start hop
      rw [hev, hexit]
    · rw [runFiring_diags, if_neg hempty]
      simp only [firstStep, List.mem_append]
      left
      right
      exact hdiag

/-- A logged firing with a one-minute deadline whose child would run two
minutes and then exit 7 — it is killed first. -/
def cfgKillLog : JobConfig := ⟨"sleep 600", 1, "run.log", true⟩

/-- Oracle for `cfgKillLog`. -/
def envKillLog : Nat → AttemptSpec :=
  fun _ => ⟨2 * minuteNs, ProcOutcome.exitErr 7, true⟩

/-- The record `cfgKillLog`/`envKillLog` produce: killed at the deadline, exit
recorded 0, RUN END marker saying `exit=0`. -/
def recKillLog : AttemptRecord :=
  ⟨1, ["sleep", "600"], 0, some minuteNs, minuteNs, minuteNs, 0, true, minuteNs,
   true,
   [FileEvent.openFile true true true, FileEvent.runStart 0, FileEvent.childOut,
    FileEvent.runEnd minuteNs 0 minuteNs, FileEvent.close]⟩

/-- A logged firing with no deadline whose child succeeds after exactly one
minute: a genuinely successful run. -/
def cfgTwin : JobConfig := ⟨"sleep 60", 0, "run.log", false⟩

/-- Oracle for `cfgTwin`. -/
def envTwin : Nat → AttemptSpec := fun _ => ⟨minuteNs, ProcOutcome.success, true⟩

/-- Witness for C10: the killed attempt reports exit 0 in marker and
diagnostic, and its log-file events are identical to those of the genuinely
successful run of `cfgTwin` — indistinguishable in the log file. -/
theorem C10_witness :
    recKillLog.killed = true ∧
    (recKillLog.exitCode = 0 ∧
     (recKillLog.openedLog = true →
       recKillLog.fileEvents =
         [FileEvent.openFile true true true,
          FileEvent.runStart recKillLog.startTime,
          FileEvent.childOut,
          FileEvent.runEnd recKillLog.endTime 0 recKillLog.reportedDuration,
          FileEvent.close]) ∧
     Diag.exited recKillLog.reportedDuration 0 true ∈
       (runFiring cfgKillLog envKillLog 0).diagnostics) ∧
    (runFiring cfgKillLog envKillLog 0).attempts.map AttemptRecord.fileEvents =
      (runFiring cfgTwin envTwin 0).attempts.map AttemptRecord.fileEvents := by
  have hmem : recKillLog ∈ (runFiring cfgKillLog envKillLog 0).attempts := by
    rw [runFiring_attempts]
    decide
  refine ⟨rfl,
    C10_timeout_reports_exit_zero cfgKillLog envKillLog 0 recKillLog hmem rfl, ?_⟩
  rw [runFiring_attempts, runFiring_attempts]
  decide

end CronRunner
